import Mathlib

/- Shallow embedding of the chrisco-mcp-server directory store, credential
store, synchronization pipeline and threaded-message retrieval engine,
translated from the TypeScript source (src/README.md database service and
src/unnamed/part_002 tool handlers, src/unnamed/part_006 Slack client).

Modelling conventions:
- Each SQLite table is a list of rows in rowid order.  `INSERT OR REPLACE`
  deletes every row conflicting on the primary key and appends the fresh row,
  matching SQLite's REPLACE semantics; a plain `INSERT` into a table with a
  UNIQUE constraint fails when a conflicting row exists.
- Remote Slack Web API calls are oracles: a `SlackAPI` record gives, for each
  endpoint, the response (or thrown error) of the call, so that the purely
  sequential control flow of the source becomes a pure function of the oracle.
- JavaScript `x || y` on strings treats the empty string as falsy and on
  numbers treats 0 as falsy; the helpers jsStrOr / jsOrStrOpt / jsOrNat
  reproduce this.
- Slack message timestamps are decimal numerals; the embedding carries their
  numeric value as a rational, so `parseFloat(m.ts || '0')` becomes `tsNum`.
- `Array.prototype.sort` with a numeric comparator is a stable sort ordered by
  the comparator; a stable sort is extensionally unique, so it is embedded as
  `List.insertionSort` (stable) with the corresponding total preorder.
-/

namespace Chrisco

/-! ## JavaScript value helpers -/

/-- Code-point comparison of two character lists: the order SQLite's BINARY
collation induces on the TEXT columns used in ORDER BY clauses. -/
def charListLe : List Char → List Char → Bool
  | [], _ => true
  | _ :: _, [] => false
  | a :: as, b :: bs =>
    if a.val < b.val then true else if b.val < a.val then false else charListLe as bs

/-- String comparison used for every `ORDER BY name` in the database service. -/
def nameLe (a b : String) : Bool := charListLe a.data b.data

/-- JavaScript `a || b` for a possibly-absent string `a` with a string default:
`undefined` and the empty string are falsy. -/
def jsStrOr (a : Option String) (b : String) : String :=
  match a with
  | some s => if s = "" then b else s
  | none => b

/-- JavaScript `a || b` where both sides are possibly-absent strings. -/
def jsOrStrOpt (a b : Option String) : Option String :=
  match a with
  | some s => if s = "" then b else some s
  | none => b

/-- JavaScript `a || b` for a possibly-absent number with default: `undefined`
and 0 are falsy. -/
def jsOrNat (a : Option Nat) (b : Nat) : Nat :=
  match a with
  | some n => if n = 0 then b else n
  | none => b

/-- JavaScript `s.startsWith('U')` for the one-character needle used by the
send_slack_message handler. -/
def jsStartsWithU (s : String) : Bool :=
  match s.data with
  | [] => false
  | c :: _ => c == 'U'

/-! ## Directory store rows (database.ts interfaces / CREATE TABLE columns) -/

/-- Row of the `channels` table (interface StoredChannel). -/
structure StoredChannel where
  id : String
  name : String
  type : String
  is_private : Bool
  is_archived : Bool
  topic : Option String
  purpose : Option String
  num_members : Option Nat
  created : Nat
  updated_at : Nat
deriving DecidableEq, Repr

/-- Row of the `users` table (interface StoredUser). -/
structure StoredUser where
  id : String
  name : String
  display_name : Option String
  real_name : Option String
  email : Option String
  is_bot : Bool
  is_deleted : Bool
  profile_image : Option String
  timezone : Option String
  updated_at : Nat
deriving DecidableEq, Repr

/-- Row of the `channel_memberships` table (interface ChannelMembership);
PRIMARY KEY (channel_id, user_id). -/
structure ChannelMembership where
  channel_id : String
  user_id : String
  added_at : Nat
deriving DecidableEq, Repr

/-- Conflict on the composite primary key of channel_memberships. -/
def memKeyEq (a b : ChannelMembership) : Bool :=
  a.channel_id == b.channel_id && a.user_id == b.user_id

/-! ## DatabaseService write operations -/

/-- One `INSERT OR REPLACE INTO users` statement: the conflicting row (same
primary key `id`) is deleted and the fresh row appended. -/
def insertOrReplaceUser (t : List StoredUser) (u : StoredUser) : List StoredUser :=
  t.filter (fun r => !(r.id == u.id)) ++ [u]

/-- DatabaseService.storeUsers: INSERT OR REPLACE of each input row in order. -/
def storeUsers (t : List StoredUser) (us : List StoredUser) : List StoredUser :=
  us.foldl insertOrReplaceUser t

/-- One plain `INSERT INTO channel_memberships`: rejected when a row with the
same (channel_id, user_id) primary key already exists. -/
def insertMembershipRow (t : List ChannelMembership) (m : ChannelMembership) :
    Except String (List ChannelMembership) :=
  if t.any (fun r => memKeyEq r m) then
    .error "UNIQUE constraint failed: channel_memberships.channel_id, channel_memberships.user_id"
  else
    .ok (t ++ [m])

/-- Sequential insertion loop of DatabaseService.storeChannelMemberships. -/
def insertMembershipRows : List ChannelMembership → List ChannelMembership →
    Except String (List ChannelMembership)
  | t, [] => .ok t
  | t, m :: rest =>
    match insertMembershipRow t m with
    | .ok t2 => insertMembershipRows t2 rest
    | .error e => .error e

/-- DatabaseService.storeChannelMemberships: collects the distinct channel ids
of the input (`[...new Set(memberships.map(m => m.channel_id))]`), deletes every
existing row of those channels, then inserts the input rows. -/
def storeChannelMemberships (t : List ChannelMembership) (ms : List ChannelMembership) :
    Except String (List ChannelMembership) :=
  let channelIds := (ms.map (fun m => m.channel_id)).dedup
  let cleared := t.filter (fun r => !(channelIds.contains r.channel_id))
  insertMembershipRows cleared ms

/-! ## DatabaseService read operations -/

/-- ORDER BY u.name over user rows. -/
def sortUsersByName (us : List StoredUser) : List StoredUser :=
  us.insertionSort (fun a b => nameLe a.name b.name)

/-- DatabaseService.getChannelMembers: `SELECT u.* FROM users u JOIN
channel_memberships cm ON u.id = cm.user_id WHERE cm.channel_id = ? AND
u.is_deleted = 0 ORDER BY u.name`.  Under the primary keys of both tables the
join yields each qualifying user row once. -/
def getChannelMembers (users : List StoredUser) (memberships : List ChannelMembership)
    (channelId : String) : List StoredUser :=
  sortUsersByName (users.filter (fun u =>
    !u.is_deleted && memberships.any (fun m => m.channel_id == channelId && m.user_id == u.id)))

/-- Member columns selected by getChannelsWithMembers
(`SELECT u.id, u.name, u.real_name, u.display_name`). -/
structure MemberSummary where
  id : String
  name : String
  real_name : Option String
  display_name : Option String
deriving DecidableEq, Repr

/-- One element of the getChannelsWithMembers result: the channel columns
joined with its member list. -/
structure ChannelWithMembers where
  channel : StoredChannel
  members : List MemberSummary
deriving DecidableEq, Repr

/-- DatabaseService.getChannelsWithMembers: all channels ordered by name, each
with the same member query as getChannelMembers projected to four columns. -/
def getChannelsWithMembers (channels : List StoredChannel) (users : List StoredUser)
    (memberships : List ChannelMembership) : List ChannelWithMembers :=
  (channels.insertionSort (fun a b => nameLe a.name b.name)).map (fun c =>
    { channel := c
      members := (getChannelMembers users memberships c.id).map (fun u =>
        ⟨u.id, u.name, u.real_name, u.display_name⟩) })

/-! ## send_slack_message handler (part_002): DM resolution -/

/-- The send_slack_message tool handler's channel resolution followed by the
network send: the returned value on success is the channel id actually passed
to chat.postMessage, and an error is thrown before any network send when the
target is a user id with no cached DM channel. -/
def sendSlackMessageHandler (channels : List StoredChannel) (users : List StoredUser)
    (memberships : List ChannelMembership) (channel : String) : Except String String :=
  if jsStartsWithU channel then
    match (getChannelsWithMembers channels users memberships).find? (fun c =>
        c.channel.type == "im" && c.members.any (fun m => m.id == channel)) with
    | some dmChannel => .ok dmChannel.channel.id
    | none => .error ("No DM channel found with user " ++ channel ++
        ". Try running refresh_all_slack_data first, or use the actual DM channel ID.")
  else
    .ok channel

/-! ## Lemmas about the membership store -/

theorem insertMembershipRows_ok (ms : List ChannelMembership) :
    ∀ t, (∀ m ∈ ms, ∀ r ∈ t, memKeyEq r m = false) →
    List.Pairwise (fun a b => memKeyEq a b = false) ms →
    insertMembershipRows t ms = .ok (t ++ ms) := by
  induction ms with
  | nil => intro t _ _; simp [insertMembershipRows]
  | cons m rest ih =>
    intro t h hp
    have hnone : t.any (fun r => memKeyEq r m) = false := by
      rw [List.any_eq_false]
      intro r hr
      simp [h m (by simp) r hr]
    have step : insertMembershipRow t m = .ok (t ++ [m]) := by
      simp [insertMembershipRow, hnone]
    have hrest : ∀ m2 ∈ rest, ∀ r ∈ t ++ [m], memKeyEq r m2 = false := by
      intro m2 hm2 r hr
      rcases List.mem_append.mp hr with h1 | h1
      · exact h m2 (by simp [hm2]) r h1
      · have : r = m := by simpa using h1
        subst this
        exact (List.pairwise_cons.mp hp).1 m2 hm2
    have := ih (t ++ [m]) hrest (List.pairwise_cons.mp hp).2
    simp [insertMembershipRows, step, this]

theorem storeChannelMemberships_ok (t ms : List ChannelMembership)
    (hkeys : List.Pairwise (fun a b => memKeyEq a b = false) ms) :
    storeChannelMemberships t ms =
      .ok (t.filter (fun r =>
          !(((ms.map (fun m => m.channel_id)).dedup).contains r.channel_id)) ++ ms) := by
  unfold storeChannelMemberships
  apply insertMembershipRows_ok
  · intro m hm r hr
    have hrmem := List.mem_filter.mp hr
    have hforall : ∀ x ∈ ms, ¬x.channel_id = r.channel_id := by simpa using hrmem.2
    have hne : (r.channel_id == m.channel_id) = false := by
      refine beq_eq_false_iff_ne.mpr ?_
      intro he
      exact hforall m hm he.symm
    simp [memKeyEq, hne]
  · exact hkeys

theorem mem_getChannelMembers {users : List StoredUser}
    {memberships : List ChannelMembership} {channelId : String} {u : StoredUser} :
    u ∈ getChannelMembers users memberships channelId ↔
      u ∈ users ∧ u.is_deleted = false ∧
        ∃ m ∈ memberships, m.channel_id = channelId ∧ m.user_id = u.id := by
  unfold getChannelMembers sortUsersByName
  rw [List.mem_insertionSort, List.mem_filter]
  simp only [Bool.and_eq_true, Bool.not_eq_true', List.any_eq_true, beq_iff_eq]

/-! ## C1: membership replace invariant -/

/-- C1: after storeChannelMemberships runs on input rows with pairwise-distinct
(channel_id, user_id) keys, every channel id appearing in the input holds
exactly the input rows (no edge from a prior refresh survives), channels absent
from the input keep their rows unchanged, and — provided each reported member
has a non-deleted row in the users table, as a refresh stores — the member set
getChannelMembers returns for an affected channel is exactly the member set of
the input. -/
theorem membership_replace_invariant
    (tbl ms : List ChannelMembership) (users : List StoredUser)
    (hkeys : List.Pairwise (fun a b => memKeyEq a b = false) ms)
    (husers : ∀ r ∈ ms, ∃ u ∈ users, u.id = r.user_id ∧ u.is_deleted = false) :
    ∃ tbl2, storeChannelMemberships tbl ms = .ok tbl2 ∧
      (∀ C, (∃ r ∈ ms, r.channel_id = C) →
        (tbl2.filter (fun r => r.channel_id == C) = ms.filter (fun r => r.channel_id == C) ∧
         ∀ uid, uid ∈ (getChannelMembers users tbl2 C).map StoredUser.id ↔
            uid ∈ (ms.filter (fun r => r.channel_id == C)).map ChannelMembership.user_id)) ∧
      (∀ C, (∀ r ∈ ms, r.channel_id ≠ C) →
        tbl2.filter (fun r => r.channel_id == C) = tbl.filter (fun r => r.channel_id == C)) := by
  classical
  set channelIds := (ms.map (fun m => m.channel_id)).dedup with hcids
  set cleared := tbl.filter (fun r => !(channelIds.contains r.channel_id)) with hclr
  refine ⟨cleared ++ ms, storeChannelMemberships_ok tbl ms hkeys, ?_, ?_⟩
  · intro C hC
    obtain ⟨r0, hr0, hr0c⟩ := hC
    have hCin : C ∈ channelIds := by
      rw [hcids, List.mem_dedup]
      exact List.mem_map.mpr ⟨r0, hr0, hr0c⟩
    have hclrC : cleared.filter (fun r => r.channel_id == C) = [] := by
      rw [List.filter_eq_nil_iff]
      intro r hr
      have hrmem := List.mem_filter.mp hr
      have hnot : r.channel_id ∉ channelIds := by simpa using hrmem.2
      intro hbeq
      have heq : r.channel_id = C := by simpa using hbeq
      exact hnot (by rw [heq]; exact hCin)
    have hfilter : (cleared ++ ms).filter (fun r => r.channel_id == C) =
        ms.filter (fun r => r.channel_id == C) := by
      rw [List.filter_append, hclrC, List.nil_append]
    refine ⟨hfilter, ?_⟩
    intro uid
    constructor
    · intro hmem
      obtain ⟨u, hu, huid⟩ := List.mem_map.mp hmem
      obtain ⟨hu_users, hdel, m, hm, hc, hid⟩ := mem_getChannelMembers.mp hu
      have hm2 : m ∈ ms.filter (fun r => r.channel_id == C) := by
        rw [← hfilter]
        exact List.mem_filter.mpr ⟨hm, by simp [hc]⟩
      exact List.mem_map.mpr ⟨m, hm2, by rw [hid, huid]⟩
    · intro hmem
      obtain ⟨m, hm, hmid⟩ := List.mem_map.mp hmem
      have hmmem := List.mem_filter.mp hm
      obtain ⟨u, hu, huid, hudel⟩ := husers m hmmem.1
      refine List.mem_map.mpr ⟨u, ?_, by rw [huid, hmid]⟩
      refine mem_getChannelMembers.mpr ⟨hu, hudel, m, ?_, by simpa using hmmem.2, huid.symm⟩
      exact List.mem_append.mpr (Or.inr hmmem.1)
  · intro C hC
    have hCout : C ∉ channelIds := by
      rw [hcids, List.mem_dedup]
      intro hin
      obtain ⟨m, hm, hmc⟩ := List.mem_map.mp hin
      exact hC m hm hmc
    have hmsC : ms.filter (fun r => r.channel_id == C) = [] := by
      rw [List.filter_eq_nil_iff]
      intro r hr hbeq
      exact hC r hr (by simpa using hbeq)
    rw [List.filter_append, hmsC, List.append_nil, hclr, List.filter_filter]
    apply List.filter_congr
    intro r hr
    by_cases h : r.channel_id = C
    · simp [h]
      exact hCout
    · simp [h]

/-- Concrete prior membership table for the C1 witness: channel C1 currently
holds stale member U9, channel C2 holds U3. -/
def tblW1 : List ChannelMembership := [⟨"C1", "U9", 0⟩, ⟨"C2", "U3", 0⟩]

/-- Concrete refresh input for the C1 witness: channel C1 now has members U1
and U2 (the stale U9 edge must disappear); channel C2 is absent. -/
def msW1 : List ChannelMembership := [⟨"C1", "U1", 5⟩, ⟨"C1", "U2", 5⟩]

/-- Concrete users table for the C1 witness. -/
def usersW1 : List StoredUser :=
  [⟨"U1", "alice", some "Alice", some "Alice A", some "a@x.io", false, false, none, none, 5⟩,
   ⟨"U2", "bob", some "Bob", some "Bob B", some "b@x.io", false, false, none, none, 5⟩]

/-- Witness for C1: the membership replace invariant applied to a concrete
refresh whose input shrinks channel C1 and leaves channel C2 untouched. -/
theorem membership_replace_invariant_witness :
    (List.Pairwise (fun a b => memKeyEq a b = false) msW1 ∧
      ∀ r ∈ msW1, ∃ u ∈ usersW1, u.id = r.user_id ∧ u.is_deleted = false) ∧
    (∃ tbl2, storeChannelMemberships tblW1 msW1 = .ok tbl2 ∧
      (∀ C, (∃ r ∈ msW1, r.channel_id = C) →
        (tbl2.filter (fun r => r.channel_id == C) = msW1.filter (fun r => r.channel_id == C) ∧
         ∀ uid, uid ∈ (getChannelMembers usersW1 tbl2 C).map StoredUser.id ↔
            uid ∈ (msW1.filter (fun r => r.channel_id == C)).map ChannelMembership.user_id)) ∧
      (∀ C, (∀ r ∈ msW1, r.channel_id ≠ C) →
        tbl2.filter (fun r => r.channel_id == C) = tblW1.filter (fun r => r.channel_id == C))) :=
  ⟨⟨by decide, by decide⟩,
    membership_replace_invariant tblW1 msW1 usersW1 (by decide) (by decide)⟩

/-! ## C10: deleted or unknown users are omitted from member reads -/

/-- C10: getChannelMembers and the member lists attached by
getChannelsWithMembers return only users that have a users-table row with
is_deleted = 0; a membership edge whose user is flagged deleted, or whose user
id has no users-table row, is omitted from the returned member list, while the
edge row itself stays in the memberships table (reads do not modify it). -/
theorem deleted_or_absent_members_omitted
    (channels : List StoredChannel) (users : List StoredUser)
    (memberships : List ChannelMembership) (cid uid : String)
    (hedge : ∃ m ∈ memberships, m.channel_id = cid ∧ m.user_id = uid)
    (hdel : ∀ u ∈ users, u.id = uid → u.is_deleted = true) :
    (∀ u ∈ getChannelMembers users memberships cid, u ∈ users ∧ u.is_deleted = false) ∧
    (∀ u ∈ getChannelMembers users memberships cid, u.id ≠ uid) ∧
    (∀ cw ∈ getChannelsWithMembers channels users memberships, ∀ s ∈ cw.members,
        s.id ≠ uid ∧ ∃ u ∈ users, u.id = s.id ∧ u.is_deleted = false) := by
  refine ⟨?_, ?_, ?_⟩
  · intro u hu
    obtain ⟨h1, h2, -⟩ := mem_getChannelMembers.mp hu
    exact ⟨h1, h2⟩
  · intro u hu he
    obtain ⟨h1, h2, -⟩ := mem_getChannelMembers.mp hu
    rw [hdel u h1 he] at h2
    exact Bool.noConfusion h2
  · intro cw hcw s hs
    unfold getChannelsWithMembers at hcw
    obtain ⟨c, hc, rfl⟩ := List.mem_map.mp hcw
    obtain ⟨u, hu, rfl⟩ := List.mem_map.mp hs
    obtain ⟨h1, h2, -⟩ := mem_getChannelMembers.mp hu
    refine ⟨?_, u, h1, rfl, h2⟩
    intro he
    rw [hdel u h1 he] at h2
    exact Bool.noConfusion h2

/-- Concrete users table for the C10 witness: Udel is flagged deleted, and user
Ughost has a membership edge but no users-table row. -/
def usersW10 : List StoredUser :=
  [⟨"Udel", "carol", none, none, none, false, true, none, none, 3⟩,
   ⟨"U1", "alice", none, none, none, false, false, none, none, 3⟩]

/-- Concrete memberships for the C10 witness. -/
def msW10 : List ChannelMembership := [⟨"C1", "Udel", 1⟩, ⟨"C1", "U1", 1⟩, ⟨"C1", "Ughost", 1⟩]

/-- Concrete channels table for the C10 witness. -/
def chansW10 : List StoredChannel :=
  [⟨"C1", "general", "public_channel", false, false, none, none, some 3, 1, 1⟩]

/-- Witness for C10: the deleted user Udel is omitted even though its
membership edge is stored. -/
theorem deleted_or_absent_members_omitted_witness :
    ((∃ m ∈ msW10, m.channel_id = "C1" ∧ m.user_id = "Udel") ∧
      ∀ u ∈ usersW10, u.id = "Udel" → u.is_deleted = true) ∧
    ((∀ u ∈ getChannelMembers usersW10 msW10 "C1", u ∈ usersW10 ∧ u.is_deleted = false) ∧
     (∀ u ∈ getChannelMembers usersW10 msW10 "C1", u.id ≠ "Udel") ∧
     (∀ cw ∈ getChannelsWithMembers chansW10 usersW10 msW10, ∀ s ∈ cw.members,
        s.id ≠ "Udel" ∧ ∃ u ∈ usersW10, u.id = s.id ∧ u.is_deleted = false)) :=
  ⟨⟨by decide, by decide⟩,
    deleted_or_absent_members_omitted chansW10 usersW10 msW10 "C1" "Udel"
      (by decide) (by decide)⟩

/-! ## C7: sendMessage user-id resolution through the cached directory -/

/-- C7: when send_slack_message is given a target starting with 'U', the
handler resolves it through the cached getChannelsWithMembers data: with no
cached DM channel of type im containing that user the handler throws the
no-DM-channel error before any network send (no .ok channel is ever produced),
and when a cached DM channel is found the message is posted to that channel's
id instead of the user id. -/
theorem send_message_dm_resolution
    (channels : List StoredChannel) (users : List StoredUser)
    (memberships : List ChannelMembership) (target : String)
    (hU : jsStartsWithU target = true) :
    ((∀ cw ∈ getChannelsWithMembers channels users memberships,
        cw.channel.type = "im" → ∀ s ∈ cw.members, s.id ≠ target) →
      sendSlackMessageHandler channels users memberships target =
        .error ("No DM channel found with user " ++ target ++
          ". Try running refresh_all_slack_data first, or use the actual DM channel ID.")) ∧
    ((∃ cw ∈ getChannelsWithMembers channels users memberships,
        cw.channel.type = "im" ∧ ∃ s ∈ cw.members, s.id = target) →
      ∃ dm ∈ getChannelsWithMembers channels users memberships,
        dm.channel.type = "im" ∧ (∃ s ∈ dm.members, s.id = target) ∧
        sendSlackMessageHandler channels users memberships target = .ok dm.channel.id) := by
  constructor
  · intro hnone
    have hfind : (getChannelsWithMembers channels users memberships).find? (fun c =>
        c.channel.type == "im" && c.members.any (fun m => m.id == target)) = none := by
      rw [List.find?_eq_none]
      intro cw hcw hcontra
      simp only [Bool.and_eq_true, List.any_eq_true, beq_iff_eq] at hcontra
      obtain ⟨htype, s, hs, hsid⟩ := hcontra
      exact hnone cw hcw htype s hs hsid
    simp [sendSlackMessageHandler, hU, hfind]
  · rintro ⟨cw, hcw, htype, s, hs, hsid⟩
    have hp : (fun c => c.channel.type == "im" && c.members.any (fun m => m.id == target))
        cw = true := by
      simp only [Bool.and_eq_true, List.any_eq_true, beq_iff_eq]
      exact ⟨htype, s, hs, hsid⟩
    have hsome : ((getChannelsWithMembers channels users memberships).find? (fun c =>
        c.channel.type == "im" && c.members.any (fun m => m.id == target))).isSome :=
      List.find?_isSome.mpr ⟨cw, hcw, hp⟩
    obtain ⟨dm, hfind⟩ := Option.isSome_iff_exists.mp hsome
    have hdm_mem := List.mem_of_find?_eq_some hfind
    have hdm_p := List.find?_some hfind
    simp only [Bool.and_eq_true, List.any_eq_true, beq_iff_eq] at hdm_p
    exact ⟨dm, hdm_mem, hdm_p.1, hdm_p.2, by simp [sendSlackMessageHandler, hU, hfind]⟩

/-- Concrete channels for the C7 witness: the cached DM channel D1 of type im
contains user U7; C9chan is an ordinary channel. -/
def chansW7 : List StoredChannel :=
  [⟨"D1", "dm-carol", "im", true, false, none, none, some 1, 1, 1⟩,
   ⟨"C5", "general", "public_channel", false, false, none, none, some 1, 1, 1⟩]

/-- Concrete users for the C7 witness. -/
def usersW7 : List StoredUser :=
  [⟨"U7", "carol", some "Carol", some "Carol C", none, false, false, none, none, 1⟩]

/-- Concrete memberships for the C7 witness. -/
def msW7 : List ChannelMembership := [⟨"D1", "U7", 1⟩, ⟨"C5", "U7", 1⟩]

/-- Witness for C7: target U7 resolves to cached DM channel D1, and the
unknown user U8 yields the no-DM-channel error. -/
theorem send_message_dm_resolution_witness :
    (jsStartsWithU "U7" = true ∧
      ∃ cw ∈ getChannelsWithMembers chansW7 usersW7 msW7,
        cw.channel.type = "im" ∧ ∃ s ∈ cw.members, s.id = "U7") ∧
    (∃ dm ∈ getChannelsWithMembers chansW7 usersW7 msW7,
      dm.channel.type = "im" ∧ (∃ s ∈ dm.members, s.id = "U7") ∧
      sendSlackMessageHandler chansW7 usersW7 msW7 "U7" = .ok dm.channel.id) :=
  ⟨⟨by decide, by decide⟩,
    (send_message_dm_resolution chansW7 usersW7 msW7 "U7" (by decide)).2 (by decide)⟩

/-! ## Credential store: slack_tokens table -/

/-- Row of the `slack_tokens` table; the CREATE TABLE statement declares
UNIQUE(team_id, user_id). -/
structure TokenRow where
  team_id : String
  team_name : String
  user_id : String
  user_name : Option String
  access_token : String
  scope : String
  token_type : String
  created_at : Nat
  updated_at : Nat
  is_active : Bool
deriving DecidableEq, Repr

/-- Input of DatabaseService.storeToken (SlackToken without the auto id). -/
structure TokenInput where
  team_id : String
  team_name : String
  user_id : String
  user_name : Option String
  access_token : String
  scope : String
  token_type : String
  created_at : Nat
  updated_at : Nat
deriving DecidableEq, Repr

/-- DatabaseService.storeToken: first an UPDATE sets is_active = 0 (and
updated_at = now) on every row of the same (team_id, user_id); then a plain
INSERT adds the new row with is_active = 1.  The INSERT is rejected by the
UNIQUE(team_id, user_id) constraint whenever a row for the pair still exists
(deactivated rows included).  The UPDATE has already committed when the INSERT
fails, so the function returns the table state after the call together with
the call's outcome. -/
def storeToken (tbl : List TokenRow) (tok : TokenInput) (now : Nat) :
    List TokenRow × Except String Unit :=
  let deactivated := tbl.map (fun r =>
    if r.team_id == tok.team_id && r.user_id == tok.user_id then
      { r with is_active := false, updated_at := now }
    else r)
  if deactivated.any (fun r => r.team_id == tok.team_id && r.user_id == tok.user_id) then
    (deactivated, .error "UNIQUE constraint failed: slack_tokens.team_id, slack_tokens.user_id")
  else
    (deactivated ++ [⟨tok.team_id, tok.team_name, tok.user_id, tok.user_name, tok.access_token,
        tok.scope, tok.token_type, tok.created_at, tok.updated_at, true⟩], .ok ())

/-- DatabaseService.getActiveToken: `SELECT * FROM slack_tokens WHERE
is_active = 1` with team/user filters when given, `ORDER BY updated_at DESC
LIMIT 1`. -/
def getActiveToken (tbl : List TokenRow) (teamId userId : Option String) : Option TokenRow :=
  let rows := tbl.filter (fun r => r.is_active &&
    (match teamId, userId with
     | some t, some u => r.team_id == t && r.user_id == u
     | some t, none => r.team_id == t
     | _, _ => true))
  (rows.insertionSort (fun a b => b.updated_at ≤ a.updated_at)).head?

/-- First token stored for the (T1, U1) pair. -/
def tokW4A : TokenInput := ⟨"T1", "Team One", "U1", some "alice", "xoxp-A", "chat:write", "user", 10, 10⟩

/-- Second token stored for the same (T1, U1) pair. -/
def tokW4B : TokenInput := ⟨"T1", "Team One", "U1", some "alice", "xoxp-B", "chat:write", "user", 20, 20⟩

/-- C4 (code bug): two storeToken calls for the same (team, user) pair with
different tokens.  The first call succeeds and leaves one active row, but the
second call's INSERT violates the UNIQUE(team_id, user_id) constraint — the
deactivated first row still occupies the pair — so storeToken errors, the
table is left with zero active rows, still holding only the first token, and
getActiveToken returns nothing instead of the second token. -/
theorem storeToken_unique_constraint_violation :
    (storeToken [] tokW4A 10).2 = .ok () ∧
    ((storeToken [] tokW4A 10).1.countP (fun r => r.is_active)) = 1 ∧
    (storeToken (storeToken [] tokW4A 10).1 tokW4B 20).2 =
      .error "UNIQUE constraint failed: slack_tokens.team_id, slack_tokens.user_id" ∧
    ((storeToken (storeToken [] tokW4A 10).1 tokW4B 20).1.countP (fun r => r.is_active)) = 0 ∧
    getActiveToken (storeToken (storeToken [] tokW4A 10).1 tokW4B 20).1
      (some "T1") (some "U1") = none ∧
    ((storeToken (storeToken [] tokW4A 10).1 tokW4B 20).1.map (fun r => r.access_token)) =
      ["xoxp-A"] :=
  ⟨rfl, by decide, rfl, by decide, by decide, by decide⟩

/-! ## Remote Slack Web API oracle -/

/-- Message object as returned by the Slack Web API, restricted to the fields
the retrieval engine reads.  A Slack ts is a decimal numeral; the embedding
carries its numeric value, so `parseFloat(msg.ts || '0')` becomes `tsNum`. -/
structure RawMessage where
  ts : Option ℚ
  user : Option String
  text : Option String
  reply_count : Option Nat
deriving DecidableEq, Repr

/-- Numeric sort key of a message: `parseFloat(msg.ts || '0')`. -/
def tsNum (m : RawMessage) : ℚ := m.ts.getD 0

/-- Channel object returned by conversations.info. -/
structure ChannelInfo where
  name : Option String
  is_channel : Bool
  is_group : Bool
  is_mpim : Bool
  is_im : Bool
deriving DecidableEq, Repr

/-- The `channelInfo = {}` fallback used after a failed conversations.info. -/
def emptyChannelInfo : ChannelInfo := ⟨none, false, false, false, false⟩

/-- Conversation object from conversations.list, restricted to the fields the
synchronization pipeline reads. -/
structure Conversation where
  id : String
  name : Option String
  is_im : Bool
  is_mpim : Bool
  is_private : Bool
  user : Option String
  created : Option Nat
  latest_ts : Option String
  unread_count : Option Nat
  is_open : Option Bool
deriving DecidableEq, Repr

/-- User object from users.info, restricted to the fields read when building
member details (nested profile.* fields are inlined). -/
structure UserInfo where
  name : Option String
  real_name : Option String
  deleted : Option Bool
  is_bot : Option Bool
  is_restricted : Option Bool
  is_ultra_restricted : Option Bool
  is_app_user : Option Bool
  is_admin : Option Bool
  is_owner : Option Bool
  tz : Option String
  locale : Option String
  team_id : Option String
  profile_display_name : Option String
  profile_email : Option String
  profile_image_72 : Option String
deriving DecidableEq, Repr

/-- Oracle for the remote Slack Web API: the response (or thrown error) of
each network call one operation makes.  conversations_history denotes the page
fetched with the hard-coded limit 15; conversations_replies takes the channel,
the thread parent timestamp and the limit argument. -/
structure SlackAPI where
  conversations_list : Except String (List Conversation)
  conversations_members : String → Except String (List String)
  users_info : String → Except String UserInfo
  conversations_history : String → Except String (List RawMessage)
  conversations_replies : String → ℚ → Nat → Except String (List RawMessage)
  conversations_info : String → Except String ChannelInfo

/-- conversations.info wrapped in the try/catch that substitutes `{}` on
failure. -/
def channelInfoOf (api : SlackAPI) (channelId : String) : ChannelInfo :=
  match api.conversations_info channelId with
  | .ok i => i
  | .error _ => emptyChannelInfo

/-- The conversation_type context string derived from a channel info object. -/
def conversationTypeOf (info : ChannelInfo) : String :=
  if info.is_channel then "channel"
  else if info.is_group then "group"
  else if info.is_mpim then "mpim"
  else if info.is_im then "im"
  else "unknown"

/-! ## Threaded message retrieval engine (slack.ts part_006) -/

/-- Nested thread reply as attached under its parent message. -/
structure ThreadReply where
  msg : RawMessage
  conversation_id : String
  conversation_name : String
  conversation_type : String
  thread_ts : ℚ
  is_thread_parent : Bool
  is_thread_reply : Bool
  parent_message_ts : ℚ
deriving DecidableEq, Repr

/-- Primary message with conversation context and nested thread replies. -/
structure MessageWithContext where
  msg : RawMessage
  conversation_id : String
  conversation_name : String
  conversation_type : String
  is_thread_parent : Bool
  is_thread_reply : Bool
  thread_replies : List ThreadReply
deriving DecidableEq, Repr

/-- Context decoration of one fetched reply, exactly as the nesting loop maps
it (the reply keeps its remote position; no re-sorting). -/
def mkThreadReply (channelId convName convType : String) (parentTs : ℚ)
    (r : RawMessage) : ThreadReply :=
  ⟨r, channelId, convName, convType, parentTs, false, true, parentTs⟩

/-- Loop body of fetchLatestMessagesFromChannel for one primary message:
attach conversation context and the thread-parent flag; when the message has a
positive reply_count and a ts, fetch the full reply page (limit 1000), and if
it holds more than one element drop the echoed parent (the first element) and
nest the rest; a thrown per-thread error is caught and leaves the reply list
empty. -/
def buildMessageWithThreads (api : SlackAPI) (channelId : String) (info : ChannelInfo)
    (msg : RawMessage) : MessageWithContext :=
  let convName := jsStrOr info.name channelId
  let convType := conversationTypeOf info
  let isParent : Bool :=
    match msg.reply_count with
    | some n => decide (0 < n)
    | none => false
  let threadReplies : List ThreadReply :=
    match msg.reply_count, msg.ts with
    | some n, some t =>
      if 0 < n then
        match api.conversations_replies channelId t 1000 with
        | .ok replies =>
          if 1 < replies.length then
            (replies.drop 1).map (mkThreadReply channelId convName convType t)
          else []
        | .error _ => []
      else []
    | _, _ => []
  ⟨msg, channelId, convName, convType, isParent, false, threadReplies⟩

/-- Comparator of the final chronological sort:
`(a, b) => parseFloat(a.ts || '0') - parseFloat(b.ts || '0')` ascending. -/
def tsLe (a b : MessageWithContext) : Prop := tsNum a.msg ≤ tsNum b.msg

instance : DecidableRel tsLe :=
  fun a b => inferInstanceAs (Decidable (tsNum a.msg ≤ tsNum b.msg))

instance : IsTotal MessageWithContext tsLe := ⟨fun a b => le_total (tsNum a.msg) (tsNum b.msg)⟩

instance : IsTrans MessageWithContext tsLe := ⟨fun _ _ _ hab hbc => le_trans hab hbc⟩

/-- fetchLatestMessagesFromChannel: fetch the most recent page of primary
messages (a thrown history error propagates), return [] when the page is
empty, process every message through the nesting loop, and sort the primary
sequence chronologically with the stable numeric comparator. -/
def fetchLatestMessagesFromChannel (api : SlackAPI) (channelId : String) :
    Except String (List MessageWithContext) :=
  match api.conversations_history channelId with
  | .error e => .error e
  | .ok history =>
    if history.isEmpty then .ok []
    else
      .ok ((history.map
        (buildMessageWithThreads api channelId (channelInfoOf api channelId))).insertionSort tsLe)

theorem fetchLatest_ok (api : SlackAPI) (channelId : String) (history : List RawMessage)
    (hh : api.conversations_history channelId = .ok history) (hne : history ≠ []) :
    fetchLatestMessagesFromChannel api channelId =
      .ok ((history.map
        (buildMessageWithThreads api channelId (channelInfoOf api channelId))).insertionSort
          tsLe) := by
  unfold fetchLatestMessagesFromChannel
  rw [hh]
  cases history with
  | nil => exact absurd rfl hne
  | cons a rest => simp [List.isEmpty]

/-! ## C2: chronological ordering of the primary sequence -/

/-- C2: when the history fetch succeeds, fetchLatestMessagesFromChannel
returns a primary sequence whose timestamps are pairwise nondecreasing
(hence ts[i] ≤ ts[i+1] for all adjacent i), and that sequence is a
permutation of the processed history page: every element is exactly the
nesting loop's output, whose reply list is the remote reply page tail in
remote order — nested replies are not independently re-sorted. -/
theorem chronological_ordering (api : SlackAPI) (channelId : String)
    (history : List RawMessage)
    (hh : api.conversations_history channelId = .ok history) :
    ∃ out, fetchLatestMessagesFromChannel api channelId = .ok out ∧
      List.Pairwise (fun a b => tsNum a.msg ≤ tsNum b.msg) out ∧
      out.Perm (history.map
        (buildMessageWithThreads api channelId (channelInfoOf api channelId))) := by
  cases history with
  | nil =>
    refine ⟨[], ?_, List.Pairwise.nil, by simp⟩
    unfold fetchLatestMessagesFromChannel
    rw [hh]
    simp [List.isEmpty]
  | cons a rest =>
    refine ⟨_, fetchLatest_ok api channelId (a :: rest) hh (by simp), ?_, ?_⟩
    · exact List.sorted_insertionSort tsLe _
    · exact List.perm_insertionSort tsLe _

/-- Concrete messages for the retrieval witnesses: the history page is
returned newest-first by the remote API; message ts=3 is a thread parent
whose reply fetch throws, message ts=2 is a thread parent with two replies. -/
def msgW1 : RawMessage := ⟨some 3, some "U1", some "m3", some 1⟩

def msgW2 : RawMessage := ⟨some 2, some "U2", some "m2", some 2⟩

def msgW3 : RawMessage := ⟨some 1, some "U3", some "m1", none⟩

/-- Reply page of parent ts=2: the echoed parent followed by two replies. -/
def pageW : List RawMessage :=
  [msgW2, ⟨some 5, some "U1", some "r1", none⟩, ⟨some 6, some "U3", some "r2", none⟩]

/-- Concrete remote API for the retrieval witnesses. -/
def apiW : SlackAPI where
  conversations_list := .error "unused"
  conversations_members := fun _ => .error "unused"
  users_info := fun _ => .error "unused"
  conversations_history := fun cid =>
    if cid = "CW" then .ok [msgW1, msgW2, msgW3] else .error "channel_not_found"
  conversations_replies := fun cid t lim =>
    if cid = "CW" ∧ t = 2 ∧ lim = 1000 then .ok pageW else .error "thread fetch failed"
  conversations_info := fun cid =>
    if cid = "CW" then .ok ⟨some "general", true, false, false, false⟩ else .error "channel_not_found"

/-- Witness for C2: the concrete three-message channel CW. -/
theorem chronological_ordering_witness :
    apiW.conversations_history "CW" = .ok [msgW1, msgW2, msgW3] ∧
    (∃ out, fetchLatestMessagesFromChannel apiW "CW" = .ok out ∧
      List.Pairwise (fun a b => tsNum a.msg ≤ tsNum b.msg) out ∧
      out.Perm ([msgW1, msgW2, msgW3].map
        (buildMessageWithThreads apiW "CW" (channelInfoOf apiW "CW")))) :=
  ⟨rfl, chronological_ordering apiW "CW" [msgW1, msgW2, msgW3] rfl⟩

/-! ## C5: thread nesting completeness -/

/-- C5: for a primary message with reply_count R > 0 whose reply fetch
succeeds and returns the full thread (the echoed parent followed by the R
replies, no truncation), the nested reply list is exactly the reply page with
its first element — the echoed parent — dropped, so it has length R, and the
processed message appears in the returned sequence. -/
theorem thread_nesting_completeness (api : SlackAPI) (channelId : String)
    (history page : List RawMessage) (msg : RawMessage) (R : Nat) (t : ℚ)
    (hh : api.conversations_history channelId = .ok history)
    (hmem : msg ∈ history)
    (hrc : msg.reply_count = some R) (hR : 0 < R) (hts : msg.ts = some t)
    (hpage : api.conversations_replies channelId t 1000 = .ok page)
    (hlen : page.length = R + 1) :
    (buildMessageWithThreads api channelId (channelInfoOf api channelId) msg).thread_replies =
      (page.drop 1).map (mkThreadReply channelId
        (jsStrOr (channelInfoOf api channelId).name channelId)
        (conversationTypeOf (channelInfoOf api channelId)) t) ∧
    (buildMessageWithThreads api channelId
        (channelInfoOf api channelId) msg).thread_replies.length = R ∧
    ∃ out, fetchLatestMessagesFromChannel api channelId = .ok out ∧
      buildMessageWithThreads api channelId (channelInfoOf api channelId) msg ∈ out := by
  have h2 : 1 < page.length := by omega
  have hbuild : (buildMessageWithThreads api channelId
      (channelInfoOf api channelId) msg).thread_replies =
      (page.drop 1).map (mkThreadReply channelId
        (jsStrOr (channelInfoOf api channelId).name channelId)
        (conversationTypeOf (channelInfoOf api channelId)) t) := by
    simp [buildMessageWithThreads, hrc, hts, hR, hpage, h2]
  refine ⟨hbuild, ?_, ?_⟩
  · rw [hbuild, List.length_map, List.length_drop, hlen]
    omega
  · refine ⟨_, fetchLatest_ok api channelId history hh
      (by intro he; rw [he] at hmem; cases hmem), ?_⟩
    rw [List.mem_insertionSort]
    exact List.mem_map.mpr ⟨msg, hmem, rfl⟩

/-- Witness for C5: parent ts=2 in channel CW has reply_count 2 and a
three-element reply page (echoed parent plus both replies). -/
theorem thread_nesting_completeness_witness :
    (apiW.conversations_history "CW" = .ok [msgW1, msgW2, msgW3] ∧
      msgW2 ∈ [msgW1, msgW2, msgW3] ∧ msgW2.reply_count = some 2 ∧
      apiW.conversations_replies "CW" 2 1000 = .ok pageW ∧ pageW.length = 2 + 1) ∧
    ((buildMessageWithThreads apiW "CW" (channelInfoOf apiW "CW") msgW2).thread_replies =
      (pageW.drop 1).map (mkThreadReply "CW"
        (jsStrOr (channelInfoOf apiW "CW").name "CW")
        (conversationTypeOf (channelInfoOf apiW "CW")) 2) ∧
    (buildMessageWithThreads apiW "CW"
        (channelInfoOf apiW "CW") msgW2).thread_replies.length = 2 ∧
    ∃ out, fetchLatestMessagesFromChannel apiW "CW" = .ok out ∧
      buildMessageWithThreads apiW "CW" (channelInfoOf apiW "CW") msgW2 ∈ out) :=
  ⟨⟨rfl, by decide, by decide, rfl, by decide⟩,
    thread_nesting_completeness apiW "CW" [msgW1, msgW2, msgW3] pageW msgW2 2 2
      rfl (by decide) (by decide) (by decide) (by decide) rfl (by decide)⟩

/-! ## C6: a per-thread failure does not abort the page -/

/-- C6: when the reply fetch for one thread parent throws, the error is caught
and processing continues: the operation still returns a result covering every
primary message of the page, and the failing parent is included with an empty
nested reply list. -/
theorem thread_failure_isolated (api : SlackAPI) (channelId : String)
    (history : List RawMessage) (msg : RawMessage) (R : Nat) (t : ℚ) (e : String)
    (hh : api.conversations_history channelId = .ok history)
    (hmem : msg ∈ history)
    (hrc : msg.reply_count = some R) (hR : 0 < R) (hts : msg.ts = some t)
    (herr : api.conversations_replies channelId t 1000 = .error e) :
    ∃ out, fetchLatestMessagesFromChannel api channelId = .ok out ∧
      out.length = history.length ∧
      buildMessageWithThreads api channelId (channelInfoOf api channelId) msg ∈ out ∧
      (buildMessageWithThreads api channelId
        (channelInfoOf api channelId) msg).thread_replies = [] := by
  refine ⟨_, fetchLatest_ok api channelId history hh
    (by intro he; rw [he] at hmem; cases hmem), ?_, ?_, ?_⟩
  · rw [(List.perm_insertionSort tsLe _).length_eq, List.length_map]
  · rw [List.mem_insertionSort]
    exact List.mem_map.mpr ⟨msg, hmem, rfl⟩
  · simp [buildMessageWithThreads, hrc, hts, hR, herr]

/-- Witness for C6: the reply fetch for parent ts=3 in channel CW throws, yet
all three primary messages are returned and ts=3 carries no replies. -/
theorem thread_failure_isolated_witness :
    (apiW.conversations_history "CW" = .ok [msgW1, msgW2, msgW3] ∧
      msgW1 ∈ [msgW1, msgW2, msgW3] ∧ msgW1.reply_count = some 1 ∧
      apiW.conversations_replies "CW" 3 1000 = .error "thread fetch failed") ∧
    (∃ out, fetchLatestMessagesFromChannel apiW "CW" = .ok out ∧
      out.length = ([msgW1, msgW2, msgW3] : List RawMessage).length ∧
      buildMessageWithThreads apiW "CW" (channelInfoOf apiW "CW") msgW1 ∈ out ∧
      (buildMessageWithThreads apiW "CW"
        (channelInfoOf apiW "CW") msgW1).thread_replies = []) :=
  ⟨⟨rfl, by decide, by decide, rfl⟩,
    thread_failure_isolated apiW "CW" [msgW1, msgW2, msgW3] msgW1 1 3 "thread fetch failed"
      rfl (by decide) (by decide) (by decide) (by decide) rfl⟩

/-! ## Synchronization pipeline: fetchChannelsWithMembers (part_006) -/

/-- Member detail object built for one resolved user: the fields of the
object literal in fetchChannelsWithMembers.  Absent fields of the failure stub
are `none`. -/
structure MemberDetail where
  id : String
  name : Option String
  display_name : Option String
  real_name : Option String
  email : Option String
  is_bot : Option Bool
  is_deleted : Option Bool
  is_restricted : Option Bool
  is_ultra_restricted : Option Bool
  is_app_user : Option Bool
  is_admin : Option Bool
  is_owner : Option Bool
  profile_image : Option String
  timezone : Option String
  locale : Option String
  team_id : Option String
  updated_at : Option Nat
deriving DecidableEq, Repr

/-- Member detail built from a successful users.info response (every field
defaulted to '' / false when the response omits it). -/
def mkFullDetail (userId : String) (now : Nat) (u : UserInfo) : MemberDetail where
  id := userId
  name := some (u.name.getD "")
  display_name := some (u.profile_display_name.getD "")
  real_name := some (u.real_name.getD "")
  email := some (u.profile_email.getD "")
  is_bot := some (u.is_bot.getD false)
  is_deleted := some (u.deleted.getD false)
  is_restricted := some (u.is_restricted.getD false)
  is_ultra_restricted := some (u.is_ultra_restricted.getD false)
  is_app_user := some (u.is_app_user.getD false)
  is_admin := some (u.is_admin.getD false)
  is_owner := some (u.is_owner.getD false)
  profile_image := some (u.profile_image_72.getD "")
  timezone := some (u.tz.getD "")
  locale := some (u.locale.getD "")
  team_id := some (u.team_id.getD "")
  updated_at := some now

/-- Stub recorded when users.info fails for one member:
`{ id: userId, name: userId, is_deleted: false }` — only id, name (set to the
user id) and is_deleted are present. -/
def stubDetail (userId : String) : MemberDetail where
  id := userId
  name := some userId
  display_name := none
  real_name := none
  email := none
  is_bot := none
  is_deleted := some false
  is_restricted := none
  is_ultra_restricted := none
  is_app_user := none
  is_admin := none
  is_owner := none
  profile_image := none
  timezone := none
  locale := none
  team_id := none
  updated_at := none

/-- Per-member detail resolution: users.info wrapped in the catch that
substitutes the stub. -/
def fetchMemberDetail (api : SlackAPI) (now : Nat) (userId : String) : MemberDetail :=
  match api.users_info userId with
  | .ok u => mkFullDetail userId now u
  | .error _ => stubDetail userId

/-- One element of the fetchChannelsWithMembers result: the spread
conversation plus member_ids, member_details and the type tag. -/
structure ConversationWithMembers where
  conv : Conversation
  member_ids : List String
  member_details : Option (List MemberDetail)
  type : String
deriving DecidableEq, Repr

/-- Type tag computed in the per-conversation catch handler. -/
def conversationFallbackType (c : Conversation) : String :=
  if c.is_im then "im"
  else if c.is_mpim then "mpim"
  else if c.is_private then "private_channel"
  else "public_channel"

/-- Per-conversation body of fetchChannelsWithMembers.  DMs take the single
counterpart as their member list without a members call; other kinds fetch the
member id list and (when full details are requested) resolve every member's
profile, substituting the stub on a per-member failure; a thrown
conversations.members error is caught per conversation and records empty
member lists. -/
def processConversation (api : SlackAPI) (includeFull : Bool) (now : Nat)
    (c : Conversation) : ConversationWithMembers :=
  if c.is_im then
    let details : Option (List MemberDetail) :=
      match includeFull, c.user with
      | true, some u => some [fetchMemberDetail api now u]
      | _, _ => none
    ⟨c, c.user.toList, details, "im"⟩
  else
    match api.conversations_members c.id with
    | .error _ => ⟨c, [], if includeFull then some [] else none, conversationFallbackType c⟩
    | .ok memberIds =>
      let details : Option (List MemberDetail) :=
        if includeFull ∧ memberIds ≠ [] then
          some (memberIds.map (fetchMemberDetail api now))
        else none
      ⟨c, memberIds, details,
        if c.is_mpim then "mpim"
        else if c.is_private then "private_channel"
        else "public_channel"⟩

/-- fetchChannelsWithMembers: a failed conversations.list is fatal and
propagates; otherwise every listed conversation is processed. -/
def fetchChannelsWithMembers (api : SlackAPI) (includeFull : Bool) (now : Nat) :
    Except String (List ConversationWithMembers) :=
  match api.conversations_list with
  | .error e => .error e
  | .ok convs => .ok (convs.map (processConversation api includeFull now))

/-! ## refreshAllSlackData (part_006) -/

/-- JavaScript `Map.set` on the association list of entries in insertion
order: an existing key keeps its position and takes the new value; a new key
is appended. -/
def mapSet : List (String × MemberDetail) → String → MemberDetail →
    List (String × MemberDetail)
  | [], k, v => [(k, v)]
  | p :: rest, k, v => if p.1 == k then (k, v) :: rest else p :: mapSet rest k v

/-- The user-deduplication loop of refreshAllSlackData: every member detail of
every conversation is written into a Map keyed by user id. -/
def collectUsers (convs : List ConversationWithMembers) : List (String × MemberDetail) :=
  convs.foldl (fun acc c =>
    match c.member_details with
    | some details => details.foldl (fun acc2 d => mapSet acc2 d.id d) acc
    | none => acc) []

/-- The member-detail stream in the order the deduplication loop visits it. -/
def allDetails (convs : List ConversationWithMembers) : List MemberDetail :=
  convs.flatMap (fun c => c.member_details.getD [])

/-- Result object of refreshAllSlackData. -/
structure RefreshResult where
  conversations : List ConversationWithMembers
  users : List MemberDetail
  totalMemberships : Nat
deriving DecidableEq, Repr

/-- refreshAllSlackData: fetch all conversations with full member details
(fatal on a conversations.list failure), deduplicate the discovered users by
id with last-value-wins, and report the conversations, the unique users and
the total membership count. -/
def refreshAllSlackData (api : SlackAPI) (now : Nat) : Except String RefreshResult :=
  match fetchChannelsWithMembers api true now with
  | .error e => .error e
  | .ok conversations =>
    .ok ⟨conversations, (collectUsers conversations).map Prod.snd,
      (conversations.map (fun c => c.member_ids.length)).sum⟩

/-- Transformation of one deduplicated member detail into a users-table row,
as the refresh_all_slack_data handler maps it before storeUsers (JS `|| ''`
and `|| false` defaults; `updated_at: user.updated_at || Date.now()`). -/
def toStoredUser (now : Nat) (d : MemberDetail) : StoredUser where
  id := d.id
  name := jsStrOr d.name ""
  display_name := some (jsStrOr d.display_name "")
  real_name := some (jsStrOr d.real_name "")
  email := some (jsStrOr d.email "")
  is_bot := d.is_bot.getD false
  is_deleted := d.is_deleted.getD false
  profile_image := some (jsStrOr d.profile_image "")
  timezone := some (jsStrOr d.timezone "")
  updated_at := jsOrNat d.updated_at now

/-! ## Lemmas about the user deduplication map -/

theorem find_mapSet_same (k : String) (v : MemberDetail) :
    ∀ m, (mapSet m k v).find? (fun p => p.1 == k) = some (k, v) := by
  intro m
  induction m with
  | nil => simp [mapSet]
  | cons p rest ih =>
    by_cases h : p.1 = k
    · simp [mapSet, h]
    · have hb : (p.1 == k) = false := beq_eq_false_iff_ne.mpr h
      simp [mapSet, hb, ih]

theorem find_mapSet_other (j k : String) (v : MemberDetail) (hne : j ≠ k) :
    ∀ m, (mapSet m j v).find? (fun p => p.1 == k) = m.find? (fun p => p.1 == k) := by
  intro m
  induction m with
  | nil =>
    rw [mapSet]
    simp [List.find?, beq_eq_false_iff_ne.mpr hne]
  | cons p rest ih =>
    rw [mapSet]
    by_cases h : p.1 = j
    · rw [if_pos (beq_iff_eq.mpr h)]
      have h1 : (((j, v) : String × MemberDetail).1 == k) = false := beq_eq_false_iff_ne.mpr hne
      have h2 : (p.1 == k) = false := beq_eq_false_iff_ne.mpr (by rw [h]; exact hne)
      rw [List.find?_cons_of_neg _ (by simp [h1]), List.find?_cons_of_neg _ (by simp [h2])]
    · rw [if_neg (by simp [h])]
      by_cases hk : p.1 = k
      · rw [List.find?_cons_of_pos _ (by simp [hk]), List.find?_cons_of_pos _ (by simp [hk])]
      · rw [List.find?_cons_of_neg _ (by simp [hk]), List.find?_cons_of_neg _ (by simp [hk]),
          ih]

theorem mem_mapSet (k : String) (v : MemberDetail) :
    ∀ m q, q ∈ mapSet m k v → q ∈ m ∨ q = (k, v) := by
  intro m
  induction m with
  | nil =>
    intro q hq
    rw [mapSet] at hq
    simp at hq
    exact Or.inr hq
  | cons r rs ihr =>
    intro q hq
    rw [mapSet] at hq
    by_cases hr : r.1 = k
    · rw [if_pos (beq_iff_eq.mpr hr)] at hq
      rcases List.mem_cons.mp hq with h1 | h1
      · exact Or.inr h1
      · exact Or.inl (List.mem_cons_of_mem r h1)
    · rw [if_neg (by simp [hr])] at hq
      rcases List.mem_cons.mp hq with h1 | h1
      · exact Or.inl (h1 ▸ List.mem_cons_self r rs)
      · rcases ihr q h1 with h2 | h2
        · exact Or.inl (List.mem_cons_of_mem r h2)
        · exact Or.inr h2

theorem mapSet_keys_nodup (k : String) (v : MemberDetail) :
    ∀ m, (m.map Prod.fst).Nodup → ((mapSet m k v).map Prod.fst).Nodup := by
  intro m
  induction m with
  | nil => intro _; simp [mapSet]
  | cons p rest ih =>
    intro h
    rw [List.map_cons, List.nodup_cons] at h
    by_cases hp : p.1 = k
    · rw [mapSet, if_pos (beq_iff_eq.mpr hp), List.map_cons, List.nodup_cons]
      exact ⟨by rw [← hp]; exact h.1, h.2⟩
    · rw [mapSet, if_neg (by simp [hp]), List.map_cons, List.nodup_cons]
      constructor
      · intro hmem
        obtain ⟨q, hq, hqfst⟩ := List.mem_map.mp hmem
        rcases mem_mapSet k v rest q hq with h1 | h1
        · exact h.1 (hqfst ▸ List.mem_map.mpr ⟨q, h1, rfl⟩)
        · rw [h1] at hqfst
          exact hp (by rw [← hqfst])
      · exact ih h.2

theorem mapSet_pairs (k : String) (v : MemberDetail) (hkv : k = v.id) :
    ∀ m, (∀ p ∈ m, p.1 = p.2.id) → ∀ p ∈ mapSet m k v, p.1 = p.2.id := by
  intro m
  induction m with
  | nil =>
    intro _ p hp
    simp [mapSet] at hp
    rw [hp]
    exact hkv
  | cons q rest ih =>
    intro h p hp
    rw [mapSet] at hp
    by_cases hq : q.1 = k
    · rw [if_pos (beq_iff_eq.mpr hq)] at hp
      rcases List.mem_cons.mp hp with h1 | h1
      · rw [h1]; exact hkv
      · exact h p (List.mem_cons_of_mem q h1)
    · rw [if_neg (by simp [hq])] at hp
      rcases List.mem_cons.mp hp with h1 | h1
      · exact h p (h1 ▸ List.mem_cons_self q rest)
      · exact ih (fun r hr => h r (List.mem_cons_of_mem q hr)) p h1

/-- Inner fold of the deduplication loop over one detail stream. -/
def foldDetails (acc : List (String × MemberDetail)) (ds : List MemberDetail) :
    List (String × MemberDetail) :=
  ds.foldl (fun a d => mapSet a d.id d) acc

theorem find_foldDetails_neg (k : String) :
    ∀ (ds : List MemberDetail) (acc : List (String × MemberDetail)),
    ds.filter (fun x => x.id == k) = [] →
    (foldDetails acc ds).find? (fun p => p.1 == k) = acc.find? (fun p => p.1 == k) := by
  intro ds
  induction ds with
  | nil => intro acc _; rfl
  | cons d rest ih =>
    intro acc h
    rw [List.filter_cons] at h
    by_cases hd : (d.id == k) = true
    · rw [if_pos hd] at h
      cases h
    · rw [if_neg hd] at h
      have hstep : foldDetails acc (d :: rest) = foldDetails (mapSet acc d.id d) rest := rfl
      rw [hstep, ih (mapSet acc d.id d) h,
        find_mapSet_other d.id k d (fun he => hd (beq_iff_eq.mpr he)) acc]

theorem find_foldDetails_pos (k : String) :
    ∀ (ds : List MemberDetail) (acc : List (String × MemberDetail)) (d : MemberDetail),
    (ds.filter (fun x => x.id == k)).getLast? = some d →
    (foldDetails acc ds).find? (fun p => p.1 == k) = some (k, d) := by
  intro ds
  induction ds with
  | nil => intro acc d h; cases h
  | cons d0 rest ih =>
    intro acc d h
    have hstep : foldDetails acc (d0 :: rest) = foldDetails (mapSet acc d0.id d0) rest := rfl
    rw [List.filter_cons] at h
    by_cases hd : (d0.id == k) = true
    · rw [if_pos hd] at h
      have hdk : d0.id = k := beq_iff_eq.mp hd
      cases hf : rest.filter (fun x => x.id == k) with
      | nil =>
        rw [hf, List.getLast?_singleton] at h
        have hdd : d0 = d := by injection h
        subst hdd
        rw [hstep, find_foldDetails_neg k rest (mapSet acc d0.id d0) hf, hdk,
          find_mapSet_same k d0 acc]
      | cons y ys =>
        rw [hf, List.getLast?_cons_cons] at h
        exact hstep ▸ ih (mapSet acc d0.id d0) d (hf ▸ h)
    · rw [if_neg hd] at h
      exact hstep ▸ ih (mapSet acc d0.id d0) d h

theorem foldDetails_keys_nodup :
    ∀ (ds : List MemberDetail) (acc : List (String × MemberDetail)),
    (acc.map Prod.fst).Nodup → ((foldDetails acc ds).map Prod.fst).Nodup := by
  intro ds
  induction ds with
  | nil => intro acc h; exact h
  | cons d rest ih =>
    intro acc h
    exact ih (mapSet acc d.id d) (mapSet_keys_nodup d.id d acc h)

theorem foldDetails_pairs :
    ∀ (ds : List MemberDetail) (acc : List (String × MemberDetail)),
    (∀ p ∈ acc, p.1 = p.2.id) → ∀ p ∈ foldDetails acc ds, p.1 = p.2.id := by
  intro ds
  induction ds with
  | nil => intro acc h; exact h
  | cons d rest ih =>
    intro acc h
    exact ih (mapSet acc d.id d) (mapSet_pairs d.id d rfl acc h)

theorem collectUsers_eq_foldDetails (convs : List ConversationWithMembers) :
    collectUsers convs = foldDetails [] (allDetails convs) := by
  suffices h : ∀ (cs : List ConversationWithMembers) (acc : List (String × MemberDetail)),
      cs.foldl (fun acc c =>
        match c.member_details with
        | some details => foldDetails acc details
        | none => acc) acc = foldDetails acc (allDetails cs) by
    have := h convs []
    unfold collectUsers
    rw [← this]
    rfl
  intro cs
  induction cs with
  | nil => intro acc; simp [allDetails, foldDetails]
  | cons c rest ih =>
    intro acc
    rw [List.foldl_cons]
    have hall : allDetails (c :: rest) = c.member_details.getD [] ++ allDetails rest := by
      simp [allDetails]
    rw [hall]
    have hfold : foldDetails acc (c.member_details.getD [] ++ allDetails rest) =
        foldDetails (foldDetails acc (c.member_details.getD [])) (allDetails rest) := by
      unfold foldDetails
      rw [List.foldl_append]
    rw [hfold]
    cases hmd : c.member_details with
    | none => rw [ih]; rfl
    | some details => rw [ih]; rfl

/-! ## Lemmas about storeUsers -/

theorem countP_insertOrReplaceUser_other (U : String) (t : List StoredUser) (u : StoredUser)
    (hne : u.id ≠ U) :
    (insertOrReplaceUser t u).countP (fun r => r.id == U) =
      t.countP (fun r => r.id == U) := by
  unfold insertOrReplaceUser
  rw [List.countP_append]
  have h0 : ([u] : List StoredUser).countP (fun r => r.id == U) = 0 := by
    simp [List.countP_cons, beq_eq_false_iff_ne.mpr hne]
  rw [h0, Nat.add_zero, List.countP_filter]
  apply List.countP_congr
  intro r _
  by_cases hr : r.id = U
  · have : (r.id == u.id) = false := beq_eq_false_iff_ne.mpr (by rw [hr]; exact fun he => hne he.symm)
    simp [hr, this]
    exact fun he => hne he.symm
  · simp [beq_eq_false_iff_ne.mpr hr]

theorem countP_storeUsers_untouched (U : String) :
    ∀ (us : List StoredUser) (t : List StoredUser), (∀ u ∈ us, u.id ≠ U) →
    (storeUsers t us).countP (fun r => r.id == U) = t.countP (fun r => r.id == U) := by
  intro us
  induction us with
  | nil => intro t _; rfl
  | cons u rest ih =>
    intro t h
    have hstep : storeUsers t (u :: rest) = storeUsers (insertOrReplaceUser t u) rest := rfl
    rw [hstep, ih _ (fun x hx => h x (List.mem_cons_of_mem u hx)),
      countP_insertOrReplaceUser_other U t u (h u (List.mem_cons_self u rest))]

theorem countP_insertOrReplaceUser_self (t : List StoredUser) (u : StoredUser) :
    (insertOrReplaceUser t u).countP (fun r => r.id == u.id) = 1 := by
  unfold insertOrReplaceUser
  rw [List.countP_append, List.countP_filter]
  have h0 : t.countP (fun r => (r.id == u.id) && !(r.id == u.id)) = 0 := by
    rw [List.countP_eq_zero]
    intro r _
    cases h : (r.id == u.id) <;> simp [h]
  rw [h0]
  simp [List.countP_cons]

theorem storeUsers_count_one (U : String) :
    ∀ (us : List StoredUser) (t : List StoredUser), (∃ u ∈ us, u.id = U) →
    (storeUsers t us).countP (fun r => r.id == U) = 1 := by
  intro us
  induction us with
  | nil => rintro t ⟨u, hu, -⟩; cases hu
  | cons u rest ih =>
    intro t h
    have hstep : storeUsers t (u :: rest) = storeUsers (insertOrReplaceUser t u) rest := rfl
    by_cases hrest : ∃ x ∈ rest, x.id = U
    · rw [hstep]
      exact ih _ hrest
    · obtain ⟨x, hx, hxid⟩ := h
      have hxu : x = u := by
        rcases List.mem_cons.mp hx with h1 | h1
        · exact h1
        · exact absurd ⟨x, h1, hxid⟩ hrest
      subst hxu
      have hnone : ∀ y ∈ rest, y.id ≠ U := fun y hy he => hrest ⟨y, hy, he⟩
      rw [hstep, countP_storeUsers_untouched U rest _ hnone, ← hxid]
      exact countP_insertOrReplaceUser_self t x

theorem mem_storeUsers_untouched (U : String) :
    ∀ (us : List StoredUser) (t : List StoredUser), (∀ x ∈ us, x.id ≠ U) →
    ∀ r ∈ storeUsers t us, r.id = U → r ∈ t := by
  intro us
  induction us with
  | nil => intro t _ r hr _; exact hr
  | cons u rest ih =>
    intro t h r hr hrid
    have hstep : storeUsers t (u :: rest) = storeUsers (insertOrReplaceUser t u) rest := rfl
    have hmem : r ∈ insertOrReplaceUser t u :=
      ih (insertOrReplaceUser t u) (fun x hx => h x (List.mem_cons_of_mem u hx)) r
        (hstep ▸ hr) hrid
    unfold insertOrReplaceUser at hmem
    rcases List.mem_append.mp hmem with h1 | h1
    · exact (List.mem_filter.mp h1).1
    · have hru : r = u := by simpa using h1
      exact absurd hrid (hru ▸ h u (List.mem_cons_self u rest))

theorem storeUsers_last_wins (U : String) (u : StoredUser) :
    ∀ (us : List StoredUser) (t : List StoredUser),
    (us.filter (fun x => x.id == U)).getLast? = some u →
    ∀ r ∈ storeUsers t us, r.id = U → r = u := by
  intro us
  induction us with
  | nil => intro t h; cases h
  | cons v rest ih =>
    intro t h r hr hrid
    have hstep : storeUsers t (v :: rest) = storeUsers (insertOrReplaceUser t v) rest := rfl
    rw [List.filter_cons] at h
    by_cases hv : (v.id == U) = true
    · rw [if_pos hv] at h
      cases hf : rest.filter (fun x => x.id == U) with
      | nil =>
        rw [hf, List.getLast?_singleton] at h
        have hvu : v = u := by injection h
        subst hvu
        have hnone : ∀ x ∈ rest, x.id ≠ U := by
          intro x hx he
          have hxf : x ∈ rest.filter (fun x => x.id == U) :=
            List.mem_filter.mpr ⟨hx, beq_iff_eq.mpr he⟩
          rw [hf] at hxf
          cases hxf
        have hmem : r ∈ insertOrReplaceUser t v :=
          mem_storeUsers_untouched U rest _ hnone r (hstep ▸ hr) hrid
        unfold insertOrReplaceUser at hmem
        rcases List.mem_append.mp hmem with h1 | h1
        · exfalso
          have h2 := List.mem_filter.mp h1
          have hrv : r.id = v.id := by rw [hrid]; exact (beq_iff_eq.mp hv).symm
          simp [hrv] at h2
        · simpa using h1
      | cons y ys =>
        rw [hf, List.getLast?_cons_cons] at h
        exact ih _ (hf ▸ h) r (hstep ▸ hr) hrid
    · rw [if_neg hv] at h
      exact ih _ h r (hstep ▸ hr) hrid

theorem filter_key_eq_singleton (U : String) (q : String × MemberDetail) :
    ∀ m : List (String × MemberDetail), (m.map Prod.fst).Nodup → q ∈ m → q.1 = U →
    m.filter (fun p => p.1 == U) = [q] := by
  intro m
  induction m with
  | nil => intro _ hq _; cases hq
  | cons p rest ih =>
    intro hnd hq hkey
    rw [List.map_cons, List.nodup_cons] at hnd
    rw [List.filter_cons]
    rcases List.mem_cons.mp hq with h1 | h1
    · subst h1
      rw [if_pos (beq_iff_eq.mpr hkey)]
      have hrest : rest.filter (fun p => p.1 == U) = [] := by
        rw [List.filter_eq_nil_iff]
        intro r hr hb
        apply hnd.1
        rw [hkey, ← beq_iff_eq.mp hb]
        exact List.mem_map.mpr ⟨r, hr, rfl⟩
      rw [hrest]
    · have hp : (p.1 == U) = false := by
        refine beq_eq_false_iff_ne.mpr ?_
        intro he
        apply hnd.1
        rw [he, ← hkey]
        exact List.mem_map.mpr ⟨q, h1, rfl⟩
      rw [if_neg (by simp [hp])]
      exact ih hnd.2 h1 hkey

/-! ## C3: user deduplication invariant -/

/-- C3: when a refreshAllSlackData run discovers user U as a member of two
different conversations, the deduplication map merges the discoveries, and
after the handler maps the unique users to rows and calls storeUsers the users
table holds exactly one row for U; that row is the stored image of the last
profile written into the map for U (the last detail with id U in conversation
traversal order). -/
theorem user_dedup_invariant (api : SlackAPI) (now now2 : Nat)
    (tbl : List StoredUser) (res : RefreshResult) (U : String)
    (c1 c2 : ConversationWithMembers) (ds1 ds2 : List MemberDetail)
    (h : refreshAllSlackData api now = .ok res)
    (hc1 : c1 ∈ res.conversations) (hc2 : c2 ∈ res.conversations) (hne : c1 ≠ c2)
    (hm1 : c1.member_details = some ds1) (hd1 : ∃ d ∈ ds1, d.id = U)
    (hm2 : c2.member_details = some ds2) (hd2 : ∃ d ∈ ds2, d.id = U) :
    (storeUsers tbl (res.users.map (toStoredUser now2))).countP (fun r => r.id == U) = 1 ∧
    ∃ dlast, ((allDetails res.conversations).filter (fun d => d.id == U)).getLast? =
        some dlast ∧
      ∀ r ∈ storeUsers tbl (res.users.map (toStoredUser now2)), r.id = U →
        r = toStoredUser now2 dlast := by
  have hres : res.users = (collectUsers res.conversations).map Prod.snd := by
    unfold refreshAllSlackData at h
    cases hfc : fetchChannelsWithMembers api true now with
    | error e => rw [hfc] at h; cases h
    | ok convs =>
      rw [hfc] at h
      injection h with h2
      rw [← h2]
  obtain ⟨d0, hd0mem, hd0id⟩ := hd1
  have hd0all : d0 ∈ allDetails res.conversations := by
    unfold allDetails
    refine List.mem_flatMap.mpr ⟨c1, hc1, ?_⟩
    rw [hm1]
    simpa using hd0mem
  have hfilter_ne : (allDetails res.conversations).filter (fun d => d.id == U) ≠ [] := by
    intro hnil
    have hin : d0 ∈ (allDetails res.conversations).filter (fun d => d.id == U) :=
      List.mem_filter.mpr ⟨hd0all, beq_iff_eq.mpr hd0id⟩
    rw [hnil] at hin
    cases hin
  obtain ⟨dlast, hlast⟩ : ∃ dl,
      ((allDetails res.conversations).filter (fun d => d.id == U)).getLast? = some dl := by
    cases hgl : ((allDetails res.conversations).filter (fun d => d.id == U)).getLast? with
    | none => exact absurd (List.getLast?_eq_none_iff.mp hgl) hfilter_ne
    | some dl => exact ⟨dl, rfl⟩
  have hfind : (collectUsers res.conversations).find? (fun p => p.1 == U) = some (U, dlast) := by
    rw [collectUsers_eq_foldDetails]
    exact find_foldDetails_pos U (allDetails res.conversations) [] dlast hlast
  have hmemc : (U, dlast) ∈ collectUsers res.conversations := List.mem_of_find?_eq_some hfind
  have hpairs : ∀ p ∈ collectUsers res.conversations, p.1 = p.2.id := by
    rw [collectUsers_eq_foldDetails]
    exact foldDetails_pairs (allDetails res.conversations) [] (by intro p hp; cases hp)
  have hdlastid : dlast.id = U := (hpairs (U, dlast) hmemc).symm
  have hnd : ((collectUsers res.conversations).map Prod.fst).Nodup := by
    rw [collectUsers_eq_foldDetails]
    exact foldDetails_keys_nodup (allDetails res.conversations) [] (by simp)
  have hfil : (collectUsers res.conversations).filter (fun p => p.1 == U) = [(U, dlast)] :=
    filter_key_eq_singleton U (U, dlast) (collectUsers res.conversations) hnd hmemc rfl
  have husers_fil : res.users.filter (fun d => d.id == U) = [dlast] := by
    rw [hres, List.filter_map]
    have hcongr : (collectUsers res.conversations).filter
        ((fun d => d.id == U) ∘ Prod.snd) =
        (collectUsers res.conversations).filter (fun p => p.1 == U) := by
      apply List.filter_congr
      intro p hp
      have hpp := hpairs p hp
      simp only [Function.comp]
      rw [← hpp]
    rw [hcongr, hfil]
    rfl
  have hinput_fil : (res.users.map (toStoredUser now2)).filter (fun r => r.id == U) =
      [toStoredUser now2 dlast] := by
    rw [List.filter_map]
    have hcongr2 : res.users.filter ((fun r => r.id == U) ∘ toStoredUser now2) =
        res.users.filter (fun d => d.id == U) :=
      List.filter_congr (fun d _ => rfl)
    rw [hcongr2, husers_fil]
    rfl
  have hdmem : dlast ∈ res.users := by
    rw [hres]
    exact List.mem_map.mpr ⟨(U, dlast), hmemc, rfl⟩
  constructor
  · exact storeUsers_count_one U (res.users.map (toStoredUser now2)) tbl
      ⟨toStoredUser now2 dlast, List.mem_map.mpr ⟨dlast, hdmem, rfl⟩, hdlastid⟩
  · exact ⟨dlast, hlast,
      storeUsers_last_wins U (toStoredUser now2 dlast) (res.users.map (toStoredUser now2)) tbl
        (by rw [hinput_fil, List.getLast?_singleton])⟩

/-! ## DM conversation rows built by the refresh handler (part_002) -/

/-- Stored DM-conversation row (interface DMConversation). -/
structure DMConversationRow where
  id : String
  type : String
  user_id : Option String
  user_name : Option String
  is_user_deleted : Bool
  created : Nat
  updated_at : Nat
  latest_message_ts : Option String
  unread_count : Nat
  is_open : Bool
  priority : Nat
deriving DecidableEq, Repr

/-- DM-conversation rows built by the refresh_all_slack_data handler: the
refreshed conversations filtered to type im; for each, "the other user" is
looked up in the deduplicated user list — but only when the conversation
carries exactly two member ids — excluding the credential holder's id; the
hard-coded conversation D07EHJ1FCS0 gets priority 100. -/
def buildDMConversations (res : RefreshResult) (currentUserId : Option String)
    (now now1000 : Nat) : List DMConversationRow :=
  (res.conversations.filter (fun c => c.type == "im")).map (fun dm =>
    let otherUser : Option MemberDetail :=
      if dm.member_ids.length == 2 then
        res.users.find? (fun u =>
          dm.member_ids.contains u.id && !(some u.id == currentUserId))
      else none
    { id := dm.conv.id
      type := dm.type
      user_id := otherUser.map MemberDetail.id
      user_name :=
        match otherUser with
        | some u => jsOrStrOpt u.display_name (jsOrStrOpt u.real_name (jsOrStrOpt u.name none))
        | none => none
      is_user_deleted :=
        match otherUser with
        | some u => u.is_deleted.getD false
        | none => false
      created := jsOrNat dm.conv.created now1000
      updated_at := now
      latest_message_ts := jsOrStrOpt dm.conv.latest_ts none
      unread_count := jsOrNat dm.conv.unread_count 0
      is_open := dm.conv.is_open != some false
      priority := if dm.conv.id == "D07EHJ1FCS0" then 100 else 0 })

/-! ## Concrete synchronization run shared by the refresh witnesses -/

/-- users.info payload for U1 (the credential holder). -/
def infoU1 : UserInfo :=
  ⟨some "alice", some "Alice A", some false, some false, some false, some false,
    some false, some false, some false, some "UTC", some "en", some "T1",
    some "Alice", some "a@x.io", some "img1"⟩

/-- users.info payload for U2 (the DM counterpart, also in both channels). -/
def infoU2 : UserInfo :=
  ⟨some "bob", some "Bob B", some false, some false, some false, some false,
    some false, some false, some false, some "UTC", some "en", some "T1",
    some "Bob", some "b@x.io", some "img2"⟩

/-- Public channel CA with members U1 and U2. -/
def convCA : Conversation :=
  ⟨"CA", some "alpha", false, false, false, none, some 100, none, some 0, some true⟩

/-- Public channel CB with members U2 and U3 (U3's profile fetch fails). -/
def convCB : Conversation :=
  ⟨"CB", some "beta", false, false, false, none, some 200, none, some 0, some true⟩

/-- Direct conversation D1 between the credential holder U1 and U2. -/
def convDM : Conversation :=
  ⟨"D1", none, true, false, false, some "U2", some 50, some "123.45", some 2, some true⟩

/-- Concrete remote API for one synchronization run. -/
def apiSync : SlackAPI where
  conversations_list := .ok [convCA, convCB, convDM]
  conversations_members := fun cid =>
    if cid = "CA" then .ok ["U1", "U2"]
    else if cid = "CB" then .ok ["U2", "U3"]
    else .error "channel_not_found"
  users_info := fun uid =>
    if uid = "U1" then .ok infoU1
    else if uid = "U2" then .ok infoU2
    else .error "user_fetch_failed"
  conversations_history := fun _ => .error "unused"
  conversations_replies := fun _ _ _ => .error "unused"
  conversations_info := fun _ => .error "unused"

/-- The refresh result of the concrete run. -/
def resSync : RefreshResult := (refreshAllSlackData apiSync 5).toOption.getD ⟨[], [], 0⟩

/-! ## C8: per-member profile failure is stubbed, list failure is fatal -/

theorem processConversation_not_im (api : SlackAPI) (now : Nat) (c : Conversation)
    (memberIds : List String)
    (him : c.is_im = false) (hmem : api.conversations_members c.id = .ok memberIds)
    (hne : memberIds ≠ []) :
    processConversation api true now c =
      ⟨c, memberIds, some (memberIds.map (fetchMemberDetail api now)),
        if c.is_mpim then "mpim"
        else if c.is_private then "private_channel"
        else "public_channel"⟩ := by
  unfold processConversation
  rw [him]
  simp only [Bool.false_eq_true, if_false]
  rw [hmem]
  simp [hne]

/-- Counterexample to C8 as stated: in the concrete run, channel CB's member
U3 fails its profile fetch, and the member detail recorded for it has the name
field present (set to the user id "U3"), not absent as the claim requires of
all profile fields other than the id. -/
theorem profile_stub_name_not_absent :
    ∃ out, fetchChannelsWithMembers apiSync true 5 = .ok out ∧
      ∃ cw ∈ out, cw.conv.id = "CB" ∧
        ∃ ds, cw.member_details = some ds ∧
          ∃ d ∈ ds, d.id = "U3" ∧ d.name = some "U3" ∧ d.name ≠ none :=
  ⟨(fetchChannelsWithMembers apiSync true 5).toOption.getD [], rfl, by decide⟩

/-- C8 (amended): a profile-fetch failure for one member of a non-direct
conversation does not abort the cycle: the member is recorded as the minimal
stub { id: userId, name: userId, is_deleted: false } — id known, name set to
the user id, every other profile field absent, not flagged deleted — and its
id stays in the conversation's member_ids; a conversations.list failure is
fatal to the whole refresh and propagates to the caller. -/
theorem profile_failure_stubbed (api : SlackAPI) (now : Nat)
    (convs : List Conversation) (c : Conversation) (memberIds : List String)
    (uid e : String)
    (hlist : api.conversations_list = .ok convs) (hc : c ∈ convs)
    (him : c.is_im = false)
    (hmem : api.conversations_members c.id = .ok memberIds)
    (huid : uid ∈ memberIds)
    (herr : api.users_info uid = .error e) :
    (∃ out, fetchChannelsWithMembers api true now = .ok out ∧
      ∃ cw ∈ out, cw.conv = c ∧ cw.member_ids = memberIds ∧ uid ∈ cw.member_ids ∧
        ∃ ds, cw.member_details = some ds ∧ stubDetail uid ∈ ds ∧
          (stubDetail uid).id = uid ∧ (stubDetail uid).name = some uid ∧
          (stubDetail uid).is_deleted = some false ∧
          (stubDetail uid).display_name = none ∧ (stubDetail uid).real_name = none ∧
          (stubDetail uid).email = none ∧ (stubDetail uid).profile_image = none) ∧
    (∀ api2 : SlackAPI, ∀ now2 : Nat, ∀ e2 : String,
      api2.conversations_list = .error e2 →
      fetchChannelsWithMembers api2 true now2 = .error e2) := by
  constructor
  · have hne : memberIds ≠ [] := by
      intro h0
      rw [h0] at huid
      cases huid
    refine ⟨_, by unfold fetchChannelsWithMembers; rw [hlist], ?_⟩
    refine ⟨processConversation api true now c, List.mem_map.mpr ⟨c, hc, rfl⟩, ?_⟩
    rw [processConversation_not_im api now c memberIds him hmem hne]
    refine ⟨rfl, rfl, huid, memberIds.map (fetchMemberDetail api now), rfl, ?_,
      rfl, rfl, rfl, rfl, rfl, rfl, rfl⟩
    have hstub : fetchMemberDetail api now uid = stubDetail uid := by
      unfold fetchMemberDetail
      rw [herr]
    have hmm : fetchMemberDetail api now uid ∈ memberIds.map (fetchMemberDetail api now) :=
      List.mem_map.mpr ⟨uid, huid, rfl⟩
    exact hstub ▸ hmm
  · intro api2 now2 e2 hl2
    unfold fetchChannelsWithMembers
    rw [hl2]

/-- Witness for the amended C8: in the concrete run, channel CB keeps member
U3 whose profile fetch failed, recorded as the stub. -/
theorem profile_failure_stubbed_witness :
    (apiSync.conversations_list = .ok [convCA, convCB, convDM] ∧
      convCB ∈ [convCA, convCB, convDM] ∧ convCB.is_im = false ∧
      apiSync.conversations_members "CB" = .ok ["U2", "U3"] ∧
      "U3" ∈ ["U2", "U3"] ∧ apiSync.users_info "U3" = .error "user_fetch_failed") ∧
    ((∃ out, fetchChannelsWithMembers apiSync true 5 = .ok out ∧
      ∃ cw ∈ out, cw.conv = convCB ∧ cw.member_ids = ["U2", "U3"] ∧
        "U3" ∈ cw.member_ids ∧
        ∃ ds, cw.member_details = some ds ∧ stubDetail "U3" ∈ ds ∧
          (stubDetail "U3").id = "U3" ∧ (stubDetail "U3").name = some "U3" ∧
          (stubDetail "U3").is_deleted = some false ∧
          (stubDetail "U3").display_name = none ∧ (stubDetail "U3").real_name = none ∧
          (stubDetail "U3").email = none ∧ (stubDetail "U3").profile_image = none) ∧
    (∀ api2 : SlackAPI, ∀ now2 : Nat, ∀ e2 : String,
      api2.conversations_list = .error e2 →
      fetchChannelsWithMembers api2 true now2 = .error e2)) :=
  ⟨⟨rfl, by decide, by decide, rfl, by decide, rfl⟩,
    profile_failure_stubbed apiSync 5 [convCA, convCB, convDM] convCB ["U2", "U3"]
      "U3" "user_fetch_failed" rfl (by decide) (by decide) rfl (by decide) rfl⟩

/-! ## C9: the DM counterpart is never resolved -/

/-- C9 (code bug): in the concrete refresh, direct conversation D1 with
counterpart U2 is fetched with member_ids = ["U2"] (fetchChannelsWithMembers
gives a direct conversation only the single counterpart id), U2 is present in
the deduplicated user list, yet the built DM row has user_id = null and
user_name = null, because the handler's counterpart lookup is guarded by
member_ids.length === 2, which never holds. -/
theorem dm_counterpart_never_resolved :
    refreshAllSlackData apiSync 5 = .ok resSync ∧
    (∃ d ∈ resSync.users, d.id = "U2") ∧
    (∃ dm ∈ resSync.conversations, dm.type = "im" ∧ dm.conv.id = "D1" ∧
      dm.member_ids = ["U2"]) ∧
    (buildDMConversations resSync (some "U1") 9 9).length = 1 ∧
    (∀ row ∈ buildDMConversations resSync (some "U1") 9 9,
      row.id = "D1" ∧ row.user_id = none ∧ row.user_name = none) :=
  ⟨rfl, by decide, by decide, by decide, by decide⟩

/-- Channel CA of the concrete run as processed by the refresh. -/
def cAW : ConversationWithMembers := processConversation apiSync true 5 convCA

/-- Channel CB of the concrete run as processed by the refresh. -/
def cBW : ConversationWithMembers := processConversation apiSync true 5 convCB

/-- Member details of CA in the concrete run. -/
def dsAW : List MemberDetail := ["U1", "U2"].map (fetchMemberDetail apiSync 5)

/-- Member details of CB in the concrete run. -/
def dsBW : List MemberDetail := ["U2", "U3"].map (fetchMemberDetail apiSync 5)

/-- Prior users table holding a stale row for U2. -/
def tblW3 : List StoredUser :=
  [⟨"U2", "stale", none, none, none, false, false, none, none, 1⟩]

/-- Witness for C3: user U2 is discovered in both CA and CB of the concrete
run, and the users table afterwards holds exactly one row for U2. -/
theorem user_dedup_invariant_witness :
    (refreshAllSlackData apiSync 5 = .ok resSync ∧
      cAW ∈ resSync.conversations ∧ cBW ∈ resSync.conversations ∧ cAW ≠ cBW ∧
      cAW.member_details = some dsAW ∧ (∃ d ∈ dsAW, d.id = "U2") ∧
      cBW.member_details = some dsBW ∧ (∃ d ∈ dsBW, d.id = "U2")) ∧
    ((storeUsers tblW3 (resSync.users.map (toStoredUser 9))).countP
        (fun r => r.id == "U2") = 1 ∧
      ∃ dlast,
        ((allDetails resSync.conversations).filter (fun d => d.id == "U2")).getLast? =
          some dlast ∧
        ∀ r ∈ storeUsers tblW3 (resSync.users.map (toStoredUser 9)), r.id = "U2" →
          r = toStoredUser 9 dlast) :=
  ⟨⟨rfl, by decide, by decide, by decide, by decide, by decide, by decide, by decide⟩,
    user_dedup_invariant apiSync 5 9 tblW3 resSync "U2" cAW cBW dsAW dsBW
      rfl (by decide) (by decide) (by decide) (by decide) (by decide) (by decide)
      (by decide)⟩

end Chrisco
